import Mathlib

/-!
Verification of the scraper-platform core against its specification.

The TypeScript API services (DatasetsService, JobsService, ItemsService) and
the SQL schema are embedded shallowly: tables become lists of rows, Kysely
queries become filter / sort / take pipelines, thrown Nest exceptions become
an explicit error type.  Timestamps and ids are modelled as naturals
(Postgres TIMESTAMPTZ and UUID are totally ordered; the services only
compare them).  The wire cursor string "<primary>|<id>" is modelled by its
two decoded components, with encodeCursorStr giving the wire form.

The Python worker (the claim / succeed / fail / ingest operations) is not
part of the sources; those operations are modelled from the specification
and are marked as such in their doc comments.
-/

/-- Opaque JSONB values are modelled as association lists of string pairs. -/
abbrev Jsonb := List (String × String)

/-- Error taxonomy: the Nest exceptions thrown by the services plus the
spec's InvalidTransition / Disabled / InvalidArgument classes. -/
inductive ApiError where
  | notFound (msg : String)
  | forbidden (msg : String)
  | unauthorized (msg : String)
  | invalidTransition
  | disabled
  | invalidArgument
deriving DecidableEq, Repr

/-- Job status enumeration from db/schema.ts and the jobs CHECK constraint. -/
inductive JobStatus where
  | QUEUED
  | RUNNING
  | SUCCEEDED
  | FAILED
  | CANCELED
deriving DecidableEq, Repr

open JobStatus

/-- Row of the tenants table (db/schema.ts TenantsTable). -/
structure Tenant where
  id : Nat
  name : String
  api_key : String
  is_enabled : Bool
  created_at : Nat
  updated_at : Nat
deriving DecidableEq, Repr

/-- Row of the datasets table (db/schema.ts DatasetsTable). -/
structure Dataset where
  id : Nat
  owner_tenant_id : Option Nat
  name : String
  entity_type : String
  tags : List String
  sources : List String
  schedule_cron : Option String
  extractor : String
  config : Jsonb
  is_enabled : Bool
  created_at : Nat
  updated_at : Nat
deriving DecidableEq, Repr

/-- Row of the jobs table (db/schema.ts JobsTable). -/
structure Job where
  id : Nat
  dataset_id : Nat
  tenant_id : Nat
  status : JobStatus
  created_at : Nat
  started_at : Option Nat
  finished_at : Option Nat
  progress : Nat
  stats : Jsonb
  error_message : Option String
deriving DecidableEq, Repr

/-- Row of the items table (db/schema.ts ItemsTable). -/
structure Item where
  id : Nat
  dataset_id : Nat
  tenant_id : Option Nat
  entity_type : String
  tags : List String
  source : String
  url : String
  canonical_url : Option String
  hash : String
  published_at : Option Nat
  observed_at : Nat
  data : Jsonb
  created_at : Nat
deriving DecidableEq, Repr

/-- The database: the four tables of db/schema.ts. -/
structure Db where
  tenants : List Tenant
  datasets : List Dataset
  jobs : List Job
  items : List Item
deriving DecidableEq, Repr

/-- Visibility predicate used as the WHERE clause of every read path:
owner_tenant_id IS NULL OR owner_tenant_id = tenant.id. -/
def isVisible (d : Dataset) (t : Tenant) : Bool :=
  d.owner_tenant_id.isNone || decide (d.owner_tenant_id = some t.id)

/-- Descending lexicographic order on a (primary, id) sort key: keyGe p q
says row with key p may come before row with key q under
ORDER BY primary DESC, id DESC. -/
def keyGe (p q : Nat × Nat) : Prop :=
  q.1 < p.1 ∨ (p.1 = q.1 ∧ q.2 ≤ p.2)

instance : DecidableRel keyGe := fun p q => by
  unfold keyGe
  infer_instance

theorem keyGe_total (p q : Nat × Nat) : keyGe p q ∨ keyGe q p := by
  unfold keyGe
  omega

theorem keyGe_trans {p q r : Nat × Nat} (h1 : keyGe p q) (h2 : keyGe q r) : keyGe p r := by
  unfold keyGe at h1 h2 ⊢
  omega

/-- Strict version of keyGe: p strictly before q. -/
def keyGt (p q : Nat × Nat) : Prop :=
  q.1 < p.1 ∨ (p.1 = q.1 ∧ q.2 < p.2)

theorem keyGt_of_keyGe_ne {p q : Nat × Nat} (h : keyGe p q) (hne : p ≠ q) : keyGt p q := by
  unfold keyGe at h
  unfold keyGt
  rcases h with h | ⟨h1, h2⟩
  · exact Or.inl h
  · refine Or.inr ⟨h1, lt_of_le_of_ne h2 ?_⟩
    intro hc
    exact hne (Prod.ext h1.symm hc).symm

theorem keyGt_asymm {p q : Nat × Nat} (h : keyGt p q) : ¬ keyGt q p := by
  unfold keyGt at h ⊢
  omega

/-- Sort key of a job row: (created_at, id), compared descending. -/
def jobKey (j : Job) : Nat × Nat := (j.created_at, j.id)

/-- Sort key of an item row: (observed_at, id), compared descending. -/
def itemKey (it : Item) : Nat × Nat := (it.observed_at, it.id)

/-- ORDER BY jobs.created_at DESC, jobs.id DESC as a relation. -/
def jobBefore (a b : Job) : Prop := keyGe (jobKey a) (jobKey b)

instance : DecidableRel jobBefore := fun a b => by
  unfold jobBefore
  infer_instance

instance : IsTotal Job jobBefore := ⟨fun a b => keyGe_total _ _⟩

instance : IsTrans Job jobBefore := ⟨fun _ _ _ => keyGe_trans⟩

/-- ORDER BY items.observed_at DESC, items.id DESC as a relation. -/
def itemBefore (a b : Item) : Prop := keyGe (itemKey a) (itemKey b)

instance : DecidableRel itemBefore := fun a b => by
  unfold itemBefore
  infer_instance

instance : IsTotal Item itemBefore := ⟨fun a b => keyGe_total _ _⟩

instance : IsTrans Item itemBefore := ⟨fun _ _ _ => keyGe_trans⟩

/-- ORDER BY created_at DESC for the datasets list endpoint. -/
def dsBefore (a b : Dataset) : Prop := b.created_at ≤ a.created_at

instance : DecidableRel dsBefore := fun a b => by
  unfold dsBefore
  infer_instance

instance : IsTotal Dataset dsBefore := ⟨fun a b => Nat.le_total b.created_at a.created_at⟩

instance : IsTrans Dataset dsBefore := ⟨fun _ _ _ h1 h2 => Nat.le_trans h2 h1⟩

/-- Cursor predicate of both findAll queries: a row with key k passes a
cursor c when primary < c.1 OR (primary = c.1 AND id < c.2). -/
def cursorLtB (k c : Nat × Nat) : Bool :=
  decide (k.1 < c.1) || (decide (k.1 = c.1) && decide (k.2 < c.2))

/-- Optional-cursor filter: rows pass freely when no cursor was supplied. -/
def cursorFilterB (cur : Option (Nat × Nat)) (k : Nat × Nat) : Bool :=
  match cur with
  | none => true
  | some c => cursorLtB k c

/-- Wire encoding of a cursor: "<primary>|<id>". -/
def encodeCursorStr (c : Nat × Nat) : String :=
  toString c.1 ++ "|" ++ toString c.2

/-- Effective page size: Math.min(filters.limit || 50, 100).  A missing or
zero limit falls back to 50 (JavaScript || treats 0 as falsy). -/
def effLimit (l : Option Int) : Int :=
  min (match l with
       | none => 50
       | some v => if v = 0 then 50 else v) 100

/-- Effective page size as a natural number (the services only behave
meaningfully for non-negative limits; a negative LIMIT is rejected by the
database before any row is returned). -/
def effLimitN (l : Option Int) : Nat := (effLimit l).toNat

/-- Page construction shared by jobs/items findAll: with candidates cand
fetched under LIMIT e+1, when more than e rows came back the page keeps the
first e rows and the e-th row's key becomes the next cursor; otherwise all
rows are returned with no cursor. -/
def buildPage {α : Type} (key : α → Nat × Nat) (e : Nat) (cand : List α) :
    List α × Option (Nat × Nat) :=
  if h : e < cand.length then
    (cand.take e, some (key (cand.get ⟨e - 1, by omega⟩)))
  else
    (cand, none)

/-- Filters of DatasetsService.findAll. -/
structure DatasetFilters where
  entityType : Option String
  tag : Option String
  source : Option String
  mine : Option Bool
deriving DecidableEq, Repr

/-- WHERE clause of DatasetsService.findAll. -/
def datasetMatches (t : Tenant) (f : DatasetFilters) (d : Dataset) : Bool :=
  isVisible d t
    && (match f.entityType with
        | none => true
        | some e => decide (d.entity_type = e))
    && (match f.tag with
        | none => true
        | some tag => decide (tag ∈ d.tags))
    && (match f.source with
        | none => true
        | some s => decide (s ∈ d.sources))
    && (match f.mine with
        | some true => decide (d.owner_tenant_id = some t.id)
        | _ => true)

/-- DatasetsService.findAll: visible datasets passing the filters, ordered
by created_at descending. -/
def datasetsFindAll (db : Db) (t : Tenant) (f : DatasetFilters) : List Dataset :=
  List.insertionSort dsBefore (db.datasets.filter (datasetMatches t f))

/-- DatasetsService.findOne: first row with the id that is visible to the
tenant, NotFound otherwise. -/
def datasetsFindOne (db : Db) (id : Nat) (t : Tenant) : Except ApiError Dataset :=
  match db.datasets.find? (fun d => decide (d.id = id) && isVisible d t) with
  | some d => .ok d
  | none => .error (.notFound "Dataset not found or access denied")

/-- The whitelisted update payload (UpdateDatasetDto): only these eight
optional fields survive the global ValidationPipe with whitelist on. -/
structure UpdateDatasetDto where
  name : Option String
  entity_type : Option String
  tags : Option (List String)
  sources : Option (List String)
  schedule_cron : Option String
  extractor : Option String
  config : Option Jsonb
  is_enabled : Option Bool
deriving DecidableEq, Repr

/-- Applying the spread update { ...dto }: each field present in the DTO
overwrites the column, absent fields leave it unchanged. -/
def applyDatasetDto (d : Dataset) (dto : UpdateDatasetDto) : Dataset :=
  { d with
    name := dto.name.getD d.name
    entity_type := dto.entity_type.getD d.entity_type
    tags := dto.tags.getD d.tags
    sources := dto.sources.getD d.sources
    schedule_cron := match dto.schedule_cron with
                     | none => d.schedule_cron
                     | some s => some s
    extractor := dto.extractor.getD d.extractor
    config := dto.config.getD d.config
    is_enabled := dto.is_enabled.getD d.is_enabled }

/-- DatasetsService.update: access check through findOne, then
UPDATE datasets SET ... WHERE id = id RETURNING *. -/
def datasetsUpdate (db : Db) (id : Nat) (t : Tenant) (dto : UpdateDatasetDto) :
    Except ApiError (Db × Dataset) := do
  let existing ← datasetsFindOne db id t
  let db' := { db with
    datasets := db.datasets.map (fun d => if d.id = id then applyDatasetDto d dto else d) }
  pure (db', applyDatasetDto existing dto)

/-- Result page of JobsService.findAll.  The wire nextCursor string is the
encodeCursorStr image of the stored key. -/
structure JobsPage where
  jobs : List Job
  nextCursor : Option (Nat × Nat)
deriving DecidableEq, Repr

/-- Result page of ItemsService.findAll. -/
structure ItemsPage where
  items : List Item
  nextCursor : Option (Nat × Nat)
deriving DecidableEq, Repr

/-- Filters of JobsService.findAll.  The cursor is carried as its two
decoded components (the source splits the wire string on the pipe). -/
structure JobFilters where
  datasetId : Option Nat
  status : Option JobStatus
  limit : Option Int
  cursor : Option (Nat × Nat)
deriving DecidableEq, Repr

/-- WHERE clause of JobsService.findAll without the cursor condition: the
inner join on datasets with the visibility disjunction (dataset ids are
unique, so the join is a semijoin on jobs), plus the optional filters. -/
def jobBaseMatches (db : Db) (t : Tenant) (f : JobFilters) (j : Job) : Bool :=
  db.datasets.any (fun d => decide (d.id = j.dataset_id) && isVisible d t)
    && (match f.datasetId with
        | none => true
        | some ds => decide (j.dataset_id = ds))
    && (match f.status with
        | none => true
        | some s => decide (j.status = s))

/-- Full WHERE clause of JobsService.findAll including the cursor. -/
def jobMatches (db : Db) (t : Tenant) (f : JobFilters) (j : Job) : Bool :=
  jobBaseMatches db t f j && cursorFilterB f.cursor (jobKey j)

/-- Rows of the JobsService.findAll query before LIMIT: filtered and
ordered by (created_at desc, id desc). -/
def jobsQueryRows (db : Db) (t : Tenant) (f : JobFilters) : List Job :=
  List.insertionSort jobBefore (db.jobs.filter (jobMatches db t f))

/-- JobsService.findAll: fetch LIMIT e+1 candidates and build the page. -/
def jobsFindAll (db : Db) (t : Tenant) (f : JobFilters) : JobsPage :=
  let e := effLimitN f.limit
  let cand := (jobsQueryRows db t f).take (e + 1)
  let p := buildPage jobKey e cand
  { jobs := p.1, nextCursor := p.2 }

/-- JobsService.findOne: fetch the job by id with no visibility condition,
then check access through its dataset; an invisible dataset yields
Forbidden, a missing job yields NotFound. -/
def jobsFindOne (db : Db) (id : Nat) (t : Tenant) : Except ApiError Job :=
  match db.jobs.find? (fun j => decide (j.id = id)) with
  | none => .error (.notFound "Job not found")
  | some j =>
    match datasetsFindOne db j.dataset_id t with
    | .ok _ => .ok j
    | .error _ => .error (.forbidden "Access denied to this job")

/-- Mode defaulting of JobsService.create: (dto as any).mode || 'full'.
The service body reads the controller's request body (passed as the mode
argument at the call site); JavaScript || replaces a missing or empty
string with "full". -/
def jobMode (mode : Option String) : String :=
  match mode with
  | none => "full"
  | some s => if s = "" then "full" else s

/-- JobsService.create: resolve the dataset through findOne (visibility,
NotFound), then insert one QUEUED job with progress 0 and stats holding the
mode key.  The source performs no enablement check on the dataset or the
tenant.  The generated id and the insert timestamp are passed explicitly. -/
def jobsCreate (db : Db) (t : Tenant) (datasetId : Nat) (mode : Option String)
    (newId now : Nat) : Except ApiError (Db × Job) := do
  let _dataset ← datasetsFindOne db datasetId t
  let job : Job :=
    { id := newId
      dataset_id := datasetId
      tenant_id := t.id
      status := QUEUED
      created_at := now
      started_at := none
      finished_at := none
      progress := 0
      stats := [("mode", jobMode mode)]
      error_message := none }
  pure ({ db with jobs := db.jobs ++ [job] }, job)

/-- Filters of ItemsService.findAll.  since/until carry the parsed
observed_at bounds, the cursor its two decoded components. -/
structure ItemFilters where
  datasetId : Option Nat
  entityType : Option String
  tag : Option String
  source : Option String
  since : Option Nat
  untilTs : Option Nat
  limit : Option Int
  cursor : Option (Nat × Nat)
deriving DecidableEq, Repr

/-- WHERE clause of ItemsService.findAll without the cursor condition: the
dataset join with the visibility disjunction plus the optional filters. -/
def itemBaseMatches (db : Db) (t : Tenant) (f : ItemFilters) (it : Item) : Bool :=
  db.datasets.any (fun d => decide (d.id = it.dataset_id) && isVisible d t)
    && (match f.datasetId with
        | none => true
        | some ds => decide (it.dataset_id = ds))
    && (match f.entityType with
        | none => true
        | some e => decide (it.entity_type = e))
    && (match f.tag with
        | none => true
        | some tag => decide (tag ∈ it.tags))
    && (match f.source with
        | none => true
        | some s => decide (it.source = s))
    && (match f.since with
        | none => true
        | some s => decide (s ≤ it.observed_at))
    && (match f.untilTs with
        | none => true
        | some u => decide (it.observed_at ≤ u))

/-- Full WHERE clause of ItemsService.findAll including the cursor. -/
def itemMatches (db : Db) (t : Tenant) (f : ItemFilters) (it : Item) : Bool :=
  itemBaseMatches db t f it && cursorFilterB f.cursor (itemKey it)

/-- Rows of the ItemsService.findAll query before LIMIT: filtered and
ordered by (observed_at desc, id desc). -/
def itemsQueryRows (db : Db) (t : Tenant) (f : ItemFilters) : List Item :=
  List.insertionSort itemBefore (db.items.filter (itemMatches db t f))

/-- ItemsService.findAll: fetch LIMIT e+1 candidates and build the page. -/
def itemsFindAll (db : Db) (t : Tenant) (f : ItemFilters) : ItemsPage :=
  let e := effLimitN f.limit
  let cand := (itemsQueryRows db t f).take (e + 1)
  let p := buildPage itemKey e cand
  { items := p.1, nextCursor := p.2 }

/-- ItemsService.findOne: the item by id joined with its dataset under the
visibility disjunction; a missing or invisible item is NotFound. -/
def itemsFindOne (db : Db) (id : Nat) (t : Tenant) : Except ApiError Item :=
  match db.items.find? (fun it =>
      decide (it.id = id)
        && db.datasets.any (fun d => decide (d.id = it.dataset_id) && isVisible d t)) with
  | some it => .ok it
  | none => .error (.notFound "Item not found or access denied")

/-- Single unpaged fetch of the item collection: the findAll query with no
cursor and no LIMIT, used as the reference of the pagination round-trip. -/
def itemsUnpaged (db : Db) (t : Tenant) (f : ItemFilters) : List Item :=
  List.insertionSort itemBefore
    (db.items.filter (itemBaseMatches db t f))

/-- Modelled from the spec: section 4.2.  The worker's per-job transition of
the atomic claim: a QUEUED job moves to RUNNING and started_at is set; the
conditional update affects no row otherwise.  The worker source (Python) is
not among the repository files under verification. -/
def claimTransition (j : Job) (now : Nat) : Except ApiError Job :=
  match j.status with
  | QUEUED => .ok { j with status := RUNNING, started_at := some now }
  | _ => .error .invalidTransition

/-- Modelled from the spec: section 4.2.  succeed(jobId, finalStats):
RUNNING to SUCCEEDED with finished_at set and progress 100; a repeated call
on a job already SUCCEEDED is a no-op; any other state is an
InvalidTransition.  The worker source is not among the repository files. -/
def succeedJob (j : Job) (now : Nat) (finalStats : Jsonb) : Except ApiError Job :=
  match j.status with
  | RUNNING => .ok { j with
      status := SUCCEEDED
      finished_at := some now
      progress := 100
      stats := finalStats }
  | SUCCEEDED => .ok j
  | _ => .error .invalidTransition

/-- Modelled from the spec: section 4.2.  fail(jobId, message): RUNNING to
FAILED with finished_at and error_message set; a repeated call on a job
already FAILED is a no-op; any other state is an InvalidTransition.  The
worker source is not among the repository files. -/
def failJob (j : Job) (now : Nat) (message : String) : Except ApiError Job :=
  match j.status with
  | RUNNING => .ok { j with
      status := FAILED
      finished_at := some now
      error_message := some message }
  | FAILED => .ok j
  | _ => .error .invalidTransition

/-- Modelled from the spec: section 4.2.  cancel(jobId): QUEUED or RUNNING
to CANCELED with finished_at set (RUNNING cancellation is cooperative, the
status change only records the request); repeated cancellation is a no-op;
terminal SUCCEEDED/FAILED jobs are an InvalidTransition.  The worker and
cancellation sources are not among the repository files. -/
def cancelJob (j : Job) (now : Nat) : Except ApiError Job :=
  match j.status with
  | QUEUED => .ok { j with status := CANCELED, finished_at := some now }
  | RUNNING => .ok { j with status := CANCELED, finished_at := some now }
  | CANCELED => .ok j
  | _ => .error .invalidTransition

/-- Rank of a status along the forward-only state machine. -/
def statusRank : JobStatus → Nat
  | QUEUED => 0
  | RUNNING => 1
  | SUCCEEDED => 2
  | FAILED => 2
  | CANCELED => 2

/-- The transitions drawn in spec section 4.2. -/
inductive StatusStep : JobStatus → JobStatus → Prop where
  | claim : StatusStep QUEUED RUNNING
  | succeed : StatusStep RUNNING SUCCEEDED
  | fail : StatusStep RUNNING FAILED
  | cancelQueued : StatusStep QUEUED CANCELED
  | cancelRunning : StatusStep RUNNING CANCELED

/-- Oldest-first claim order: created_at ascending, id ascending tiebreak. -/
def claimOrder (a b : Job) : Prop :=
  a.created_at < b.created_at ∨ (a.created_at = b.created_at ∧ a.id ≤ b.id)

instance : DecidableRel claimOrder := fun a b => by
  unfold claimOrder
  infer_instance

instance : IsTotal Job claimOrder := ⟨by
  intro a b
  unfold claimOrder
  omega⟩

instance : IsTrans Job claimOrder := ⟨by
  intro a b c h1 h2
  unfold claimOrder at h1 h2 ⊢
  omega⟩

/-- Modelled from the spec: section 4.2 claim(pollerId).  Atomically select
the oldest QUEUED job and transition it to RUNNING setting started_at; the
conditional update only affects rows whose status is still QUEUED.  Returns
the updated store and the claimed job id, or none when no QUEUED job
exists.  The worker source is not among the repository files. -/
def claimStep (jobs : List Job) (now : Nat) : List Job × Option Nat :=
  let queued := jobs.filter (fun j => decide (j.status = QUEUED))
  match (List.insertionSort claimOrder queued).head? with
  | none => (jobs, none)
  | some j =>
    (jobs.map (fun x =>
        if x.id = j.id ∧ x.status = QUEUED then
          { x with status := RUNNING, started_at := some now }
        else x),
     some j.id)

/-- Modelled from the spec: section 5.  N claim operations against the
shared store.  Per the spec each claim is a single atomic conditional
update, so an arbitrary concurrent interleaving of N claims is N atomic
steps in sequence. -/
def claimMany (jobs : List Job) (now : Nat) : Nat → List Job × List (Option Nat)
  | 0 => (jobs, [])
  | n + 1 =>
    let s := claimStep jobs now
    let rest := claimMany s.1 (now + 1) n
    (rest.1, s.2 :: rest.2)

/-- Result of the ingestion upsert. -/
inductive IngestResult where
  | created
  | updated
  | unchanged
deriving DecidableEq, Repr

/-- Modelled from the spec: section 4.4.  A RawRecord as produced by the
extractor, normalized into an item candidate. -/
structure RawRecord where
  entity_type : String
  tags : List String
  source : String
  url : String
  canonical_url : Option String
  published_at : Option Nat
  data : Jsonb
deriving DecidableEq, Repr

/-- Modelled from the spec: section 4.4.  Content fingerprint of the
normalized payload; any deterministic function of the payload serves the
model. -/
def fingerprint (data : Jsonb) : String :=
  String.join (data.map (fun p => p.1 ++ "=" ++ p.2 ++ ";"))

/-- Modelled from the spec: section 4.4 ingest(datasetId, rawRecord).
Lookup by the unique (dataset_id, url) key: no row inserts (created); a row
with an identical hash only refreshes observed_at (unchanged); a row with a
different hash takes the new payload, hash, published_at and observed_at,
preserving identity and created_at (updated).  The worker upsert source is
not among the repository files; the unique index idx_items_dataset_url_unique
is in the migrations. -/
def ingest (items : List Item) (datasetId : Nat) (r : RawRecord)
    (tenantId : Option Nat) (newId now : Nat) : List Item × IngestResult :=
  match items.find? (fun it => decide (it.dataset_id = datasetId) && decide (it.url = r.url)) with
  | none =>
    (items ++ [{ id := newId
                 dataset_id := datasetId
                 tenant_id := tenantId
                 entity_type := r.entity_type
                 tags := r.tags
                 source := r.source
                 url := r.url
                 canonical_url := r.canonical_url
                 hash := fingerprint r.data
                 published_at := r.published_at
                 observed_at := now
                 data := r.data
                 created_at := now }],
     .created)
  | some existing =>
    if existing.hash = fingerprint r.data then
      (items.map (fun it =>
          if it.dataset_id = datasetId ∧ it.url = r.url then
            { it with observed_at := now }
          else it),
       .unchanged)
    else
      (items.map (fun it =>
          if it.dataset_id = datasetId ∧ it.url = r.url then
            { it with
                data := r.data
                hash := fingerprint r.data
                published_at := r.published_at
                observed_at := now }
          else it),
       .updated)

/-- Partition of a list into chunks of e (the reference shape of a full
keyset traversal with effective page size e): a list of at most e rows is a
single final page, a longer list contributes a full page of e rows. -/
def chunkPages {α : Type} (e : Nat) (R : List α) : List (List α) :=
  if h : R.length ≤ e ∨ e = 0 then [R]
  else R.take e :: chunkPages e (R.drop e)
termination_by R.length
decreasing_by
  simp only [List.length_drop]
  omega

/-- One client traversal step stream: call findAll with the current cursor,
emit the page, continue with the returned cursor until it is absent.  The
fuel bounds recursion; any fuel above the page count is enough. -/
def itemsPagesGo (db : Db) (t : Tenant) (f : ItemFilters) :
    Nat → Option (Nat × Nat) → List (List Item)
  | 0, _ => []
  | fuel + 1, cur =>
    let page := itemsFindAll db t { f with cursor := cur }
    match page.nextCursor with
    | none => [page.items]
    | some c => page.items :: itemsPagesGo db t f fuel (some c)

/-- Full client pagination of the item collection with page size k: start
with no cursor and follow nextCursor until it is absent. -/
def itemsPaginate (db : Db) (t : Tenant) (f : ItemFilters) (k : Nat) : List (List Item) :=
  itemsPagesGo db t { f with limit := some (k : Int) } (db.items.length + 1) none

section SortFilter

variable {α : Type} {r : α → α → Prop} [DecidableRel r]

theorem orderedInsert_of_forall_rel {a : α} {M : List α} (h : ∀ c ∈ M, r a c) :
    M.orderedInsert r a = a :: M := by
  cases M with
  | nil => rfl
  | cons b M' =>
    simp only [List.orderedInsert, if_pos (h b (List.mem_cons_self b M'))]

theorem filter_orderedInsert_neg {p : α → Bool} {a : α} (hpa : p a = false) :
    ∀ L : List α, (L.orderedInsert r a).filter p = L.filter p := by
  intro L
  induction L with
  | nil => simp [List.orderedInsert, hpa]
  | cons b L' ih =>
    by_cases hr : r a b
    · simp [List.orderedInsert, if_pos hr, hpa]
    · simp only [List.orderedInsert, if_neg hr, List.filter_cons]
      cases hb : p b <;> simp [ih]

theorem filter_orderedInsert_pos [IsTrans α r] {p : α → Bool} {a : α} (hpa : p a = true) :
    ∀ L : List α, L.Sorted r → (L.orderedInsert r a).filter p = (L.filter p).orderedInsert r a := by
  intro L
  induction L with
  | nil => simp [List.orderedInsert, hpa]
  | cons b L' ih =>
    intro hs
    have hs' : L'.Sorted r := hs.of_cons
    by_cases hr : r a b
    · cases hb : p b with
      | true => simp [List.orderedInsert, if_pos hr, List.filter_cons, hpa, hb]
      | false =>
        have hall : ∀ c ∈ L'.filter p, r a c := fun c hc =>
          IsTrans.trans _ _ _ hr (List.rel_of_sorted_cons hs c (List.mem_of_mem_filter hc))
        simp [List.orderedInsert, if_pos hr, List.filter_cons, hpa, hb,
              orderedInsert_of_forall_rel hall]
    · cases hb : p b with
      | true => simp [List.orderedInsert, if_neg hr, List.filter_cons, hb, ih hs']
      | false => simp [List.orderedInsert, if_neg hr, List.filter_cons, hb, ih hs']

theorem insertionSort_filter [IsTotal α r] [IsTrans α r] (p : α → Bool) :
    ∀ l : List α, List.insertionSort r (l.filter p) = (List.insertionSort r l).filter p := by
  intro l
  induction l with
  | nil => rfl
  | cons a l' ih =>
    cases hpa : p a with
    | true =>
      simp only [List.filter_cons, hpa, if_pos, List.insertionSort, ih,
        filter_orderedInsert_pos hpa _ (List.sorted_insertionSort r l')]
    | false =>
      simp only [List.filter_cons, hpa, Bool.false_eq_true, if_false, List.insertionSort, ih,
        filter_orderedInsert_neg hpa]

end SortFilter

section KeysetLemmas

variable {α : Type}

theorem cursorLtB_eq_keyGt (k c : Nat × Nat) : cursorLtB k c = true ↔ keyGt c k := by
  simp only [cursorLtB, keyGt, Bool.or_eq_true, Bool.and_eq_true, decide_eq_true_eq]
  omega

theorem sorted_strict_of_nodup_keys {key : α → Nat × Nat} {L : List α}
    (hs : L.Sorted (fun a b => keyGe (key a) (key b)))
    (hnd : (L.map key).Nodup) :
    L.Pairwise (fun a b => keyGt (key a) (key b)) := by
  have hne : L.Pairwise (fun a b => key a ≠ key b) := List.pairwise_map.mp hnd
  exact (hs.and hne).imp (fun h => keyGt_of_keyGe_ne h.1 h.2)

theorem filter_cursor_drop {key : α → Nat × Nat} :
    ∀ (L : List α), L.Pairwise (fun a b => keyGt (key a) (key b)) →
    ∀ (j : Nat) (hj : j < L.length),
      L.filter (fun x => cursorLtB (key x) (key (L.get ⟨j, hj⟩))) = L.drop (j + 1) := by
  intro L
  induction L with
  | nil =>
    intro _ j hj
    exact absurd hj (Nat.not_lt_zero j)
  | cons a L' ih =>
    intro hp j hj
    have hpa : ∀ x ∈ L', keyGt (key a) (key x) := (List.pairwise_cons.mp hp).1
    have hp' : L'.Pairwise (fun a b => keyGt (key a) (key b)) := (List.pairwise_cons.mp hp).2
    cases j with
    | zero =>
      have hhead : cursorLtB (key a) (key a) = false := by
        simp [cursorLtB]
      simp only [List.get, List.filter_cons, hhead, Bool.false_eq_true, if_false,
        List.drop_succ_cons, List.drop_zero]
      rw [List.filter_eq_self]
      intro x hx
      exact (cursorLtB_eq_keyGt _ _).mpr (hpa x hx)
    | succ j' =>
      have hj' : j' < L'.length := by
        simpa [Nat.succ_lt_succ_iff] using hj
      have hget : (a :: L').get ⟨j' + 1, hj⟩ = L'.get ⟨j', hj'⟩ := rfl
      have hhead : cursorLtB (key a) (key (L'.get ⟨j', hj'⟩)) = false := by
        rw [Bool.eq_false_iff]
        intro hc
        exact keyGt_asymm (hpa _ (List.get_mem L' j' hj')) ((cursorLtB_eq_keyGt _ _).mp hc)
      rw [hget]
      simp only [List.filter_cons, hhead, List.drop_succ_cons]
      exact ih hp' j' hj'

theorem chunkPages_flatten (e : Nat) : ∀ (R : List α), (chunkPages e R).flatten = R := by
  intro R
  rw [chunkPages]
  split
  · simp
  · rename_i h
    push_neg at h
    have hlt : (R.drop e).length < R.length := by
      simp only [List.length_drop]
      omega
    rw [List.flatten_cons, chunkPages_flatten e (R.drop e), List.take_append_drop]
termination_by R => R.length
decreasing_by
  simpa [List.length_drop] using hlt

theorem chunkPages_length (e : Nat) (he : 1 ≤ e) :
    ∀ (R : List α), (chunkPages e R).length =
      if R.length = 0 then 1 else (R.length + e - 1) / e := by
  intro R
  rw [chunkPages]
  split
  · rename_i h
    rcases h with h | h
    · by_cases h0 : R.length = 0
      · simp [h0]
      · have h1 : (R.length + e - 1) / e = 1 := by
          exact Nat.div_eq_of_lt_le (by omega) (by omega)
        simp [h0, h1]
    · omega
  · rename_i h
    push_neg at h
    have hlt : (R.drop e).length < R.length := by
      simp only [List.length_drop]
      omega
    rw [List.length_cons, chunkPages_length e he (R.drop e)]
    have hne : ¬ (R.drop e).length = 0 := by
      simp only [List.length_drop]
      omega
    rw [if_neg hne, if_neg (by omega : ¬ R.length = 0)]
    simp only [List.length_drop]
    have hgt : e < R.length := by omega
    have : R.length - e + e - 1 = R.length - 1 := by omega
    rw [this]
    have h2 : R.length + e - 1 = (R.length - 1) + 1 * e := by omega
    rw [h2, Nat.add_mul_div_right _ _ (by omega : 0 < e)]
termination_by R => R.length
decreasing_by
  simpa [List.length_drop] using hlt

end KeysetLemmas

theorem nodup_itemKey_of_nodup_id {l : List Item} (h : (l.map Item.id).Nodup) :
    (l.map itemKey).Nodup := by
  have heq : l.map Item.id = (l.map itemKey).map Prod.snd := by
    rw [List.map_map]
    rfl
  rw [heq] at h
  exact h.of_map _

theorem itemsUnpaged_sorted (db : Db) (t : Tenant) (f : ItemFilters) :
    (itemsUnpaged db t f).Sorted itemBefore :=
  List.sorted_insertionSort _ _

theorem itemsUnpaged_nodup_keys (db : Db) (t : Tenant) (f : ItemFilters)
    (h : (db.items.map Item.id).Nodup) :
    ((itemsUnpaged db t f).map itemKey).Nodup := by
  have h1 : ((db.items.filter (itemBaseMatches db t f)).map itemKey).Nodup :=
    ((List.filter_sublist db.items).map itemKey).nodup (nodup_itemKey_of_nodup_id h)
  have hperm : List.Perm ((itemsUnpaged db t f).map itemKey)
      ((db.items.filter (itemBaseMatches db t f)).map itemKey) :=
    (List.perm_insertionSort itemBefore _).map itemKey
  exact hperm.nodup_iff.mpr h1

theorem itemsUnpaged_strict (db : Db) (t : Tenant) (f : ItemFilters)
    (h : (db.items.map Item.id).Nodup) :
    (itemsUnpaged db t f).Pairwise (fun a b => keyGt (itemKey a) (itemKey b)) :=
  sorted_strict_of_nodup_keys (itemsUnpaged_sorted db t f) (itemsUnpaged_nodup_keys db t f h)

theorem itemsUnpaged_update (db : Db) (t : Tenant) (f : ItemFilters)
    (l : Option Int) (cur : Option (Nat × Nat)) :
    itemsUnpaged db t { f with limit := l, cursor := cur } = itemsUnpaged db t f := rfl

theorem itemsQueryRows_cursor (db : Db) (t : Tenant) (f : ItemFilters)
    (cur : Option (Nat × Nat)) :
    itemsQueryRows db t { f with cursor := cur } =
      (itemsUnpaged db t f).filter (fun it => cursorFilterB cur (itemKey it)) := by
  unfold itemsQueryRows itemsUnpaged
  have hsplit : db.items.filter (itemMatches db t { f with cursor := cur })
      = (db.items.filter (itemBaseMatches db t f)).filter
          (fun it => cursorFilterB cur (itemKey it)) := by
    rw [List.filter_filter]
    apply List.filter_congr
    intro it _
    simp only [itemMatches]
    exact Bool.and_comm _ _
  rw [hsplit, insertionSort_filter]

theorem effLimitN_of_le (k : Nat) (hk1 : 1 ≤ k) (hk2 : k ≤ 100) :
    effLimitN (some (k : Int)) = k := by
  have hne : (k : Int) ≠ 0 := by
    exact_mod_cast Nat.pos_iff_ne_zero.mp hk1
  have hle : (k : Int) ≤ 100 := by
    exact_mod_cast hk2
  show (min (if (k : Int) = 0 then 50 else (k : Int)) 100).toNat = k
  rw [if_neg hne, min_eq_left hle]
  omega

theorem itemsUnpaged_update_limit (db : Db) (t : Tenant) (f : ItemFilters) (l : Option Int) :
    itemsUnpaged db t { f with limit := l } = itemsUnpaged db t f := rfl

theorem itemsFindAll_of_rows (db : Db) (t : Tenant) (f0 : ItemFilters)
    (cur : Option (Nat × Nat)) (k : Nat) (R : List Item)
    (hk1 : 1 ≤ k) (hk2 : k ≤ 100) (hlim : f0.limit = some (k : Int))
    (hrows : itemsQueryRows db t { f0 with cursor := cur } = R) :
    itemsFindAll db t { f0 with cursor := cur }
      = { items := (buildPage itemKey k (R.take (k + 1))).1,
          nextCursor := (buildPage itemKey k (R.take (k + 1))).2 } := by
  unfold itemsFindAll
  rw [hrows]
  rw [show ({ f0 with cursor := cur } : ItemFilters).limit = f0.limit from rfl, hlim,
    effLimitN_of_le k hk1 hk2]

theorem itemsPagesGo_spec (db : Db) (t : Tenant) (f : ItemFilters) (k : Nat)
    (hk1 : 1 ≤ k) (hk2 : k ≤ 100) (hnd : (db.items.map Item.id).Nodup) :
    ∀ (fuel j : Nat) (cur : Option (Nat × Nat)),
      (itemsUnpaged db t f).length - j < fuel →
      j ≤ (itemsUnpaged db t f).length →
      (itemsUnpaged db t f).filter (fun it => cursorFilterB cur (itemKey it))
        = (itemsUnpaged db t f).drop j →
      itemsPagesGo db t { f with limit := some (k : Int) } fuel cur
        = chunkPages k ((itemsUnpaged db t f).drop j) := by
  intro fuel
  induction fuel with
  | zero =>
    intro j cur hfuel _ _
    omega
  | succ fuel ih =>
    intro j cur hfuel hj hfilter
    have hstrict := itemsUnpaged_strict db t f hnd
    have hrows : itemsQueryRows db t { { f with limit := some (k : Int) } with cursor := cur }
        = (itemsUnpaged db t f).drop j := by
      rw [itemsQueryRows_cursor db t { f with limit := some (k : Int) } cur,
        itemsUnpaged_update_limit, hfilter]
    have hpage := itemsFindAll_of_rows db t { f with limit := some (k : Int) } cur k
      ((itemsUnpaged db t f).drop j) hk1 hk2 rfl hrows
    rw [itemsPagesGo, hpage]
    by_cases hcase : ((itemsUnpaged db t f).drop j).length ≤ k
    · -- final page: all remaining rows, no cursor
      have hcand : ((itemsUnpaged db t f).drop j).take (k + 1)
          = (itemsUnpaged db t f).drop j :=
        List.take_of_length_le (by omega)
      have hbp : buildPage itemKey k (((itemsUnpaged db t f).drop j).take (k + 1))
          = ((itemsUnpaged db t f).drop j, none) := by
        rw [hcand]
        unfold buildPage
        rw [dif_neg (by omega)]
      rw [hbp]
      rw [chunkPages, dif_pos (Or.inl hcase)]
    · -- full page of k rows plus a cursor
      push_neg at hcase
      have hcase2 : k < (itemsUnpaged db t f).length - j := by
        simpa using hcase
      have hclen : (((itemsUnpaged db t f).drop j).take (k + 1)).length = k + 1 := by
        simp only [List.length_take, List.length_drop]
        omega
      have hklt : k < (((itemsUnpaged db t f).drop j).take (k + 1)).length := by
        rw [hclen]
        omega
      have htt : (((itemsUnpaged db t f).drop j).take (k + 1)).take k
          = ((itemsUnpaged db t f).drop j).take k := by
        rw [List.take_take]
        congr 1
        omega
      have hbp : buildPage itemKey k (((itemsUnpaged db t f).drop j).take (k + 1))
          = (((itemsUnpaged db t f).drop j).take k,
             some (itemKey ((((itemsUnpaged db t f).drop j).take (k + 1)).get ⟨k - 1, by omega⟩))) := by
        unfold buildPage
        rw [dif_pos hklt, htt]
      have hjk1 : j + (k - 1) < (itemsUnpaged db t f).length := by
        have := List.length_drop j (itemsUnpaged db t f)
        omega
      have hgetc : (((itemsUnpaged db t f).drop j).take (k + 1)).get ⟨k - 1, by omega⟩
          = (itemsUnpaged db t f).get ⟨j + (k - 1), hjk1⟩ := by
        simp only [List.get_eq_getElem, List.getElem_take, List.getElem_drop]
      rw [hbp, hgetc]
      have hnext : (itemsUnpaged db t f).filter
            (fun it => cursorFilterB
              (some (itemKey ((itemsUnpaged db t f).get ⟨j + (k - 1), hjk1⟩))) (itemKey it))
          = (itemsUnpaged db t f).drop (j + k) := by
        have hdrop := @filter_cursor_drop Item itemKey (itemsUnpaged db t f) hstrict
            (j + (k - 1)) hjk1
        have hidx : j + (k - 1) + 1 = j + k := by omega
        rw [hidx] at hdrop
        exact hdrop
      have hrec := ih (j + k)
          (some (itemKey ((itemsUnpaged db t f).get ⟨j + (k - 1), hjk1⟩)))
          (by have := List.length_drop j (itemsUnpaged db t f); omega)
          (by have := List.length_drop j (itemsUnpaged db t f); omega)
          hnext
      dsimp only
      rw [hrec]
      conv_rhs => rw [chunkPages]
      rw [dif_neg (by omega), List.drop_drop]

theorem itemsPaginate_eq_chunkPages (db : Db) (t : Tenant) (f : ItemFilters) (k : Nat)
    (hk1 : 1 ≤ k) (hk2 : k ≤ 100) (hnd : (db.items.map Item.id).Nodup) :
    itemsPaginate db t f k = chunkPages k (itemsUnpaged db t f) := by
  unfold itemsPaginate
  have hlen : (itemsUnpaged db t f).length ≤ db.items.length := by
    unfold itemsUnpaged
    rw [List.length_insertionSort]
    exact List.length_filter_le _ _
  have h := itemsPagesGo_spec db t f k hk1 hk2 hnd (db.items.length + 1) 0 none
    (by omega) (by omega) (by simp [cursorFilterB])
  simpa using h

theorem itemsUnpaged_nodup_ids (db : Db) (t : Tenant) (f : ItemFilters)
    (h : (db.items.map Item.id).Nodup) :
    ((itemsUnpaged db t f).map Item.id).Nodup := by
  have h1 : ((db.items.filter (itemBaseMatches db t f)).map Item.id).Nodup :=
    ((List.filter_sublist db.items).map Item.id).nodup h
  have hperm : List.Perm ((itemsUnpaged db t f).map Item.id)
      ((db.items.filter (itemBaseMatches db t f)).map Item.id) :=
    (List.perm_insertionSort itemBefore _).map Item.id
  exact hperm.nodup_iff.mpr h1

/-- Unpaged jobs query: the findAll query with no cursor and no LIMIT. -/
def jobsUnpaged (db : Db) (t : Tenant) (f : JobFilters) : List Job :=
  List.insertionSort jobBefore (db.jobs.filter (jobBaseMatches db t f))

theorem jobsQueryRows_cursor (db : Db) (t : Tenant) (f : JobFilters)
    (cur : Option (Nat × Nat)) :
    jobsQueryRows db t { f with cursor := cur } =
      (jobsUnpaged db t f).filter (fun j => cursorFilterB cur (jobKey j)) := by
  unfold jobsQueryRows jobsUnpaged
  have hsplit : db.jobs.filter (jobMatches db t { f with cursor := cur })
      = (db.jobs.filter (jobBaseMatches db t f)).filter
          (fun j => cursorFilterB cur (jobKey j)) := by
    rw [List.filter_filter]
    apply List.filter_congr
    intro j _
    simp only [jobMatches]
    exact Bool.and_comm _ _
  rw [hsplit, insertionSort_filter]

theorem mem_buildPage {α : Type} {key : α → Nat × Nat} {e : Nat} {cand : List α} {x : α}
    (h : x ∈ (buildPage key e cand).1) : x ∈ cand := by
  unfold buildPage at h
  split at h
  · exact List.take_subset _ _ h
  · exact h

/-- Fixture: tenant 1 (enabled). -/
def exTenantA : Tenant :=
  { id := 1, name := "alpha", api_key := "key-a", is_enabled := true,
    created_at := 0, updated_at := 0 }

/-- Fixture: tenant 2 (enabled). -/
def exTenantB : Tenant :=
  { id := 2, name := "beta", api_key := "key-b", is_enabled := true,
    created_at := 0, updated_at := 0 }

/-- Fixture: shared dataset (owner_tenant_id NULL). -/
def exShared : Dataset :=
  { id := 10, owner_tenant_id := none, name := "shared", entity_type := "article.v1",
    tags := [], sources := [], schedule_cron := none, extractor := "spider",
    config := [], is_enabled := true, created_at := 5, updated_at := 5 }

/-- Fixture: dataset privately owned by tenant 2. -/
def exOwnedB : Dataset :=
  { id := 11, owner_tenant_id := some 2, name := "bprivate", entity_type := "article.v1",
    tags := [], sources := [], schedule_cron := none, extractor := "spider",
    config := [], is_enabled := true, created_at := 6, updated_at := 6 }

/-- Fixture: disabled dataset owned by tenant 1. -/
def exDisabled : Dataset :=
  { id := 12, owner_tenant_id := some 1, name := "adisabled", entity_type := "article.v1",
    tags := [], sources := [], schedule_cron := none, extractor := "spider",
    config := [], is_enabled := false, created_at := 7, updated_at := 7 }

/-- Fixture: a job on tenant 2's private dataset. -/
def exJobB : Job :=
  { id := 21, dataset_id := 11, tenant_id := 2, status := QUEUED, created_at := 50,
    started_at := none, finished_at := none, progress := 0, stats := [],
    error_message := none }

/-- Fixture: an item on the shared dataset. -/
def exItemA : Item :=
  { id := 31, dataset_id := 10, tenant_id := none, entity_type := "article.v1",
    tags := [], source := "s", url := "http://u", canonical_url := none,
    hash := "h", published_at := none, observed_at := 100, data := [],
    created_at := 100 }

/-- Fixture database shared by the concrete checks. -/
def exDb : Db :=
  { tenants := [exTenantA, exTenantB]
    datasets := [exShared, exOwnedB, exDisabled]
    jobs := [exJobB]
    items := [exItemA] }

/-- Fixture: a job in status RUNNING. -/
def exRunningJob : Job :=
  { id := 41, dataset_id := 10, tenant_id := 1, status := RUNNING, created_at := 50,
    started_at := some 51, finished_at := none, progress := 30, stats := [],
    error_message := none }

/-- Fixture: exRunningJob after a successful succeed at time 60. -/
def exSucceededJob : Job :=
  { id := 41, dataset_id := 10, tenant_id := 1, status := SUCCEEDED, created_at := 50,
    started_at := some 51, finished_at := some 60, progress := 100, stats := [],
    error_message := none }

/-- Fixture: a job in terminal status FAILED. -/
def exFailedJob : Job :=
  { id := 42, dataset_id := 10, tenant_id := 1, status := FAILED, created_at := 50,
    started_at := some 51, finished_at := some 52, progress := 30, stats := [],
    error_message := some "x" }

/-- Fixture: a QUEUED job contended by the claim checks. -/
def exQueuedJob : Job :=
  { id := 43, dataset_id := 10, tenant_id := 1, status := QUEUED, created_at := 40,
    started_at := none, finished_at := none, progress := 0, stats := [],
    error_message := none }

/-- Fixture: the raw record ingested by the idempotency checks. -/
def exRaw : RawRecord :=
  { entity_type := "article.v1", tags := ["t"], source := "s", url := "http://a",
    canonical_url := none, published_at := some 9, data := [("title", "T")] }

/-- Item filters with nothing set. -/
def noItemFilters : ItemFilters :=
  { datasetId := none, entityType := none, tag := none, source := none,
    since := none, untilTs := none, limit := none, cursor := none }

/-- Job filters with nothing set. -/
def noJobFilters : JobFilters :=
  { datasetId := none, status := none, limit := none, cursor := none }

/-- Dataset filters with nothing set. -/
def noDatasetFilters : DatasetFilters :=
  { entityType := none, tag := none, source := none, mine := none }

/-- Fixture items for the pagination clamp check: 101 rows on the shared
dataset, stored in descending (observed_at, id) order. -/
def clampItem (i : Nat) : Item :=
  { id := 100 + i, dataset_id := 10, tenant_id := none, entity_type := "article.v1",
    tags := [], source := "s", url := "u", canonical_url := none, hash := "h",
    published_at := none, observed_at := 1000 - i, data := [], created_at := 1 }

/-- Fixture database with 101 items for the pagination clamp check. -/
def exDbClamp : Db :=
  { tenants := [exTenantA]
    datasets := [exShared]
    jobs := []
    items := (List.range 101).map clampItem }

theorem datasetsFindOne_ok {db : Db} {id : Nat} {t : Tenant} {d : Dataset}
    (h : datasetsFindOne db id t = .ok d) :
    d ∈ db.datasets ∧ d.id = id ∧ isVisible d t = true := by
  unfold datasetsFindOne at h
  split at h
  · rename_i d0 hfind
    cases h
    have hmem := List.mem_of_find?_eq_some hfind
    have hpred := List.find?_some hfind
    simp only [Bool.and_eq_true, decide_eq_true_eq] at hpred
    exact ⟨hmem, hpred.1, hpred.2⟩
  · cases h

theorem isVisible_of_datasetMatches {t : Tenant} {f : DatasetFilters} {d : Dataset}
    (h : datasetMatches t f d = true) : isVisible d t = true := by
  simp only [datasetMatches, Bool.and_eq_true] at h
  exact h.1.1.1.1

theorem visible_of_jobBaseMatches {db : Db} {t : Tenant} {f : JobFilters} {j : Job}
    (h : jobBaseMatches db t f j = true) :
    ∃ d ∈ db.datasets, d.id = j.dataset_id ∧ isVisible d t = true := by
  simp only [jobBaseMatches, Bool.and_eq_true] at h
  have := h.1.1
  rw [List.any_eq_true] at this
  obtain ⟨d, hd, hp⟩ := this
  simp only [Bool.and_eq_true, decide_eq_true_eq] at hp
  exact ⟨d, hd, hp.1, hp.2⟩

theorem visible_of_itemBaseMatches {db : Db} {t : Tenant} {f : ItemFilters} {it : Item}
    (h : itemBaseMatches db t f it = true) :
    ∃ d ∈ db.datasets, d.id = it.dataset_id ∧ isVisible d t = true := by
  simp only [itemBaseMatches, Bool.and_eq_true] at h
  have := h.1.1.1.1.1.1
  rw [List.any_eq_true] at this
  obtain ⟨d, hd, hp⟩ := this
  simp only [Bool.and_eq_true, decide_eq_true_eq] at hp
  exact ⟨d, hd, hp.1, hp.2⟩

/-- C1: every read path over datasets, jobs and items returns a row only
when the governing dataset is visible to the calling tenant
(owner_tenant_id null or equal to the tenant id); in particular a dataset
owned by another tenant is never returned from any list or get call. -/
theorem c1_visibility_all_read_paths (db : Db) (t : Tenant) :
    (∀ (f : DatasetFilters) (d : Dataset), d ∈ datasetsFindAll db t f → isVisible d t = true)
    ∧ (∀ (id : Nat) (d : Dataset), datasetsFindOne db id t = .ok d → isVisible d t = true)
    ∧ (∀ (f : JobFilters) (j : Job), j ∈ (jobsFindAll db t f).jobs →
        ∃ d ∈ db.datasets, d.id = j.dataset_id ∧ isVisible d t = true)
    ∧ (∀ (id : Nat) (j : Job), jobsFindOne db id t = .ok j →
        ∃ d ∈ db.datasets, d.id = j.dataset_id ∧ isVisible d t = true)
    ∧ (∀ (f : ItemFilters) (it : Item), it ∈ (itemsFindAll db t f).items →
        ∃ d ∈ db.datasets, d.id = it.dataset_id ∧ isVisible d t = true)
    ∧ (∀ (id : Nat) (it : Item), itemsFindOne db id t = .ok it →
        ∃ d ∈ db.datasets, d.id = it.dataset_id ∧ isVisible d t = true)
    ∧ (∀ (f : DatasetFilters) (d : Dataset) (t2 : Nat),
        d.owner_tenant_id = some t2 → t2 ≠ t.id → d ∉ datasetsFindAll db t f) := by
  refine ⟨?_, ?_, ?_, ?_, ?_, ?_, ?_⟩
  · intro f d hd
    unfold datasetsFindAll at hd
    rw [List.mem_insertionSort] at hd
    exact isVisible_of_datasetMatches (List.of_mem_filter hd)
  · intro id d h
    exact (datasetsFindOne_ok h).2.2
  · intro f j hj
    have hc : j ∈ (jobsQueryRows db t f).take (effLimitN f.limit + 1) := mem_buildPage hj
    have hq : j ∈ jobsQueryRows db t f := List.take_subset _ _ hc
    unfold jobsQueryRows at hq
    rw [List.mem_insertionSort] at hq
    have hm := List.of_mem_filter hq
    simp only [jobMatches, Bool.and_eq_true] at hm
    exact visible_of_jobBaseMatches hm.1
  · intro id j h
    unfold jobsFindOne at h
    split at h
    · cases h
    · rename_i j0 hfind
      split at h
      · rename_i d hds
        cases h
        obtain ⟨hmem, hid, hvis⟩ := datasetsFindOne_ok hds
        exact ⟨d, hmem, hid, hvis⟩
      · cases h
  · intro f it hit
    have hc : it ∈ (itemsQueryRows db t f).take (effLimitN f.limit + 1) := mem_buildPage hit
    have hq : it ∈ itemsQueryRows db t f := List.take_subset _ _ hc
    unfold itemsQueryRows at hq
    rw [List.mem_insertionSort] at hq
    have hm := List.of_mem_filter hq
    simp only [itemMatches, Bool.and_eq_true] at hm
    exact visible_of_itemBaseMatches hm.1
  · intro id it h
    unfold itemsFindOne at h
    split at h
    · rename_i it0 hfind
      cases h
      have hpred := List.find?_some hfind
      simp only [Bool.and_eq_true, decide_eq_true_eq] at hpred
      have := hpred.2
      rw [List.any_eq_true] at this
      obtain ⟨d, hd, hp⟩ := this
      simp only [Bool.and_eq_true, decide_eq_true_eq] at hp
      exact ⟨d, hd, hp.1, hp.2⟩
    · cases h
  · intro f d t2 hown hne hd
    unfold datasetsFindAll at hd
    rw [List.mem_insertionSort] at hd
    have hvis := isVisible_of_datasetMatches (List.of_mem_filter hd)
    simp only [isVisible, hown, Bool.or_eq_true, Option.isNone_some,
      decide_eq_true_eq, Option.some.injEq] at hvis
    rcases hvis with h | h
    · cases h
    · exact hne h

/-- Witness for C1 at the fixture database: the shared dataset returned by
datasetsFindOne as tenant A is indeed visible to tenant A. -/
theorem c1_visibility_all_read_paths_witness : isVisible exShared exTenantA = true :=
  (c1_visibility_all_read_paths exDb exTenantA).2.1 10 exShared rfl

/-- C7 counterexample: tenant A fetches job 21, which exists but belongs to
tenant B's private dataset; JobsService.findOne reports Forbidden, not
NotFound, contradicting the claim that every read path reports NotFound. -/
theorem c7_counterexample :
    jobsFindOne exDb 21 exTenantA = .error (.forbidden "Access denied to this job") := rfl

/-- C7 amended: datasets and items read paths report only NotFound for a
missing or invisible entity, and JobsService.findOne reports NotFound when
the job row is missing; but when the job exists and its dataset is not
visible, JobsService.findOne reports Forbidden instead. -/
theorem c7_notfound_amended (db : Db) (id : Nat) (t : Tenant) :
    (∀ e : ApiError, datasetsFindOne db id t = .error e → ∃ m, e = .notFound m)
    ∧ (∀ e : ApiError, itemsFindOne db id t = .error e → ∃ m, e = .notFound m)
    ∧ (db.jobs.find? (fun j => decide (j.id = id)) = none →
        jobsFindOne db id t = .error (.notFound "Job not found"))
    ∧ (∀ (j : Job) (e : ApiError), db.jobs.find? (fun j => decide (j.id = id)) = some j →
        datasetsFindOne db j.dataset_id t = .error e →
        jobsFindOne db id t = .error (.forbidden "Access denied to this job")) := by
  refine ⟨?_, ?_, ?_, ?_⟩
  · intro e h
    unfold datasetsFindOne at h
    split at h
    · cases h
    · cases h
      exact ⟨_, rfl⟩
  · intro e h
    unfold itemsFindOne at h
    split at h
    · cases h
    · cases h
      exact ⟨_, rfl⟩
  · intro hnone
    unfold jobsFindOne
    rw [hnone]
  · intro j e hsome hds
    unfold jobsFindOne
    rw [hsome]
    dsimp only
    rw [hds]

/-- Witness for C7 amended: a missing job id yields NotFound. -/
theorem c7_notfound_amended_witness :
    jobsFindOne exDb 99 exTenantA = .error (.notFound "Job not found") :=
  (c7_notfound_amended exDb 99 exTenantA).2.2.1 rfl

/-- The job row inserted by JobsService.create. -/
def newJobRow (t : Tenant) (datasetId : Nat) (mode : Option String)
    (newId now : Nat) : Job :=
  { id := newId
    dataset_id := datasetId
    tenant_id := t.id
    status := QUEUED
    created_at := now
    started_at := none
    finished_at := none
    progress := 0
    stats := [("mode", jobMode mode)]
    error_message := none }

/-- Fixture: the job created against the disabled dataset. -/
def exJobOnDisabled : Job := newJobRow exTenantA 12 none 99 500

/-- C8 counterexample: dataset 12 is visible to tenant A but disabled; the
claim says create must fail with Disabled and insert empty stats, yet the
source performs no enablement check and inserts a job whose stats carry the
mode key. -/
theorem c8_counterexample :
    exDisabled.is_enabled = false
    ∧ jobsCreate exDb exTenantA 12 none 99 500
        = .ok ({ exDb with jobs := exDb.jobs ++ [exJobOnDisabled] }, exJobOnDisabled)
    ∧ exJobOnDisabled.stats ≠ [] := by
  refine ⟨rfl, rfl, by decide⟩

/-- C8 amended: create fails with the findOne NotFound exactly when the
dataset is missing or invisible; otherwise — with no enablement check on
the dataset or the tenant — it inserts exactly one QUEUED job with
progress 0 and stats holding exactly the mode key (default "full"). -/
theorem c8_create_amended (db : Db) (t : Tenant) (datasetId : Nat)
    (mode : Option String) (newId now : Nat) :
    (∀ e : ApiError, datasetsFindOne db datasetId t = .error e →
      jobsCreate db t datasetId mode newId now = .error e ∧ ∃ m, e = .notFound m)
    ∧ (∀ d : Dataset, datasetsFindOne db datasetId t = .ok d →
      jobsCreate db t datasetId mode newId now
        = .ok ({ db with jobs := db.jobs ++ [newJobRow t datasetId mode newId now] },
               newJobRow t datasetId mode newId now))
    ∧ (newJobRow t datasetId mode newId now).status = QUEUED
    ∧ (newJobRow t datasetId mode newId now).progress = 0
    ∧ (newJobRow t datasetId mode newId now).stats = [("mode", jobMode mode)] := by
  refine ⟨?_, ?_, rfl, rfl, rfl⟩
  · intro e h
    constructor
    · unfold jobsCreate
      rw [h]
      rfl
    · unfold datasetsFindOne at h
      split at h
      · cases h
      · cases h
        exact ⟨_, rfl⟩
  · intro d h
    unfold jobsCreate
    rw [h]
    rfl

/-- Witness for C8 amended: creating a job against the visible shared
dataset inserts the QUEUED row. -/
theorem c8_create_amended_witness :
    jobsCreate exDb exTenantA 10 none 77 600
      = .ok ({ exDb with jobs := exDb.jobs ++ [newJobRow exTenantA 10 none 77 600] },
             newJobRow exTenantA 10 none 77 600) :=
  (c8_create_amended exDb exTenantA 10 none 77 600).2.1 exShared rfl

/-- C9 counterexample: a request with page size 0 is not rejected with
InvalidArgument; the service substitutes the default 50 and returns the
page normally. -/
theorem c9_counterexample :
    effLimit (some 0) = 50
    ∧ itemsFindAll exDb exTenantA { noItemFilters with limit := some 0 }
        = { items := [exItemA], nextCursor := none } := by
  refine ⟨rfl, by decide⟩

/-- C9 amended: the effective page size is min(limit, 100) for a supplied
nonzero limit and 50 when the limit is absent or zero; a page size of 0 is
treated exactly like an absent limit and no InvalidArgument is raised by
either findAll (the functions return a page unconditionally). -/
theorem c9_page_size_amended (v : Int) :
    effLimit none = 50
    ∧ effLimit (some 0) = 50
    ∧ (v ≠ 0 → effLimit (some v) = min v 100)
    ∧ (∀ (db : Db) (t : Tenant) (f : JobFilters),
        jobsFindAll db t { f with limit := some 0 } = jobsFindAll db t { f with limit := none })
    ∧ (∀ (db : Db) (t : Tenant) (f : ItemFilters),
        itemsFindAll db t { f with limit := some 0 } = itemsFindAll db t { f with limit := none }) := by
  refine ⟨rfl, rfl, ?_, ?_, ?_⟩
  · intro h
    show min (if v = 0 then 50 else v) 100 = min v 100
    rw [if_neg h]
  · intro db t f
    rfl
  · intro db t f
    rfl

/-- Witness for C9 amended: a negative limit is not clamped upward. -/
theorem c9_page_size_amended_witness : effLimit (some (-7)) = min (-7) 100 :=
  (c9_page_size_amended (-7)).2.2.1 (by decide)

/-- C10: a successful DatasetsService.update returns the dataset with only
the whitelisted DTO fields rewritten; id, owner_tenant_id, created_at (and
updated_at) are unchanged, the row set is only rewritten at the updated id,
and the other tables are untouched. -/
theorem c10_update_frame (db : Db) (id : Nat) (t : Tenant) (dto : UpdateDatasetDto)
    (d : Dataset) (db' : Db) (d' : Dataset)
    (hd : datasetsFindOne db id t = .ok d)
    (h : datasetsUpdate db id t dto = .ok (db', d')) :
    d' = applyDatasetDto d dto
    ∧ d'.id = d.id
    ∧ d'.owner_tenant_id = d.owner_tenant_id
    ∧ d'.created_at = d.created_at
    ∧ d'.updated_at = d.updated_at
    ∧ db'.datasets = db.datasets.map (fun x => if x.id = id then applyDatasetDto x dto else x)
    ∧ db'.tenants = db.tenants
    ∧ db'.jobs = db.jobs
    ∧ db'.items = db.items := by
  unfold datasetsUpdate at h
  rw [hd] at h
  simp only [bind, Except.bind, pure, Except.pure, Except.ok.injEq, Prod.mk.injEq] at h
  obtain ⟨hdb, hdd⟩ := h
  subst hdb
  subst hdd
  refine ⟨rfl, ?_, ?_, ?_, ?_, rfl, rfl, rfl, rfl⟩ <;> simp [applyDatasetDto]

/-- Fixture: the update payload renaming the shared dataset and disabling it. -/
def exDto : UpdateDatasetDto :=
  { name := some "renamed", entity_type := none, tags := none, sources := none,
    schedule_cron := none, extractor := none, config := none, is_enabled := some false }

/-- Fixture: exDb after the update of dataset 10 with exDto. -/
def exDbUpdated : Db :=
  { exDb with
    datasets := exDb.datasets.map (fun x => if x.id = 10 then applyDatasetDto x exDto else x) }

/-- Witness for C10 at the fixture database: updating the shared dataset
with exDto preserves id, owner and creation time. -/
theorem c10_update_frame_witness :
    applyDatasetDto exShared exDto = applyDatasetDto exShared exDto
    ∧ (applyDatasetDto exShared exDto).id = exShared.id
    ∧ (applyDatasetDto exShared exDto).owner_tenant_id = exShared.owner_tenant_id
    ∧ (applyDatasetDto exShared exDto).created_at = exShared.created_at
    ∧ (applyDatasetDto exShared exDto).updated_at = exShared.updated_at
    ∧ exDbUpdated.datasets = exDb.datasets.map
        (fun x => if x.id = 10 then applyDatasetDto x exDto else x)
    ∧ exDbUpdated.tenants = exDb.tenants
    ∧ exDbUpdated.jobs = exDb.jobs
    ∧ exDbUpdated.items = exDb.items :=
  c10_update_frame exDb 10 exTenantA exDto exShared exDbUpdated
    (applyDatasetDto exShared exDto) rfl (by exact rfl)

/-- C3 counterexample: per the spec's terminal-idempotency rule, fail on a
job already FAILED is a no-op success, although the claim demands that any
fail call on a non-RUNNING job be an InvalidTransition. -/
theorem c3_counterexample :
    exFailedJob.status ≠ RUNNING ∧ failJob exFailedJob 55 "boom" = .ok exFailedJob := by
  refine ⟨by decide, rfl⟩

/-- C3 amended: job statuses only move forward along claim
(QUEUED to RUNNING), succeed (RUNNING to SUCCEEDED), fail (RUNNING to
FAILED) and cancel (QUEUED or RUNNING to CANCELED); succeed and fail on a
status other than RUNNING or their own terminal state are
InvalidTransition; succeed on SUCCEEDED and fail on FAILED are no-ops, and
a second succeed is idempotent. -/
theorem c3_state_machine_amended (j : Job) (now now2 : Nat) (s s2 : Jsonb) (msg : String) :
    (∀ j' : Job, claimTransition j now = .ok j' →
      j.status = QUEUED ∧ j'.status = RUNNING ∧ StatusStep j.status j'.status)
    ∧ (∀ j' : Job, succeedJob j now s = .ok j' →
      (j.status = RUNNING ∧ j'.status = SUCCEEDED ∧ StatusStep j.status j'.status)
        ∨ (j.status = SUCCEEDED ∧ j' = j))
    ∧ (∀ j' : Job, failJob j now msg = .ok j' →
      (j.status = RUNNING ∧ j'.status = FAILED ∧ StatusStep j.status j'.status)
        ∨ (j.status = FAILED ∧ j' = j))
    ∧ (∀ j' : Job, cancelJob j now = .ok j' →
      ((j.status = QUEUED ∨ j.status = RUNNING) ∧ j'.status = CANCELED
          ∧ StatusStep j.status j'.status)
        ∨ (j.status = CANCELED ∧ j' = j))
    ∧ (∀ j' : Job, claimTransition j now = .ok j' → statusRank j.status < statusRank j'.status)
    ∧ (succeedJob j now s = .error .invalidTransition ↔
        (j.status = QUEUED ∨ j.status = FAILED ∨ j.status = CANCELED))
    ∧ (failJob j now msg = .error .invalidTransition ↔
        (j.status = QUEUED ∨ j.status = SUCCEEDED ∨ j.status = CANCELED))
    ∧ (∀ j' : Job, succeedJob j now s = .ok j' → succeedJob j' now2 s2 = .ok j') := by
  refine ⟨?_, ?_, ?_, ?_, ?_, ?_, ?_, ?_⟩
  · intro j' h
    unfold claimTransition at h
    cases hs : j.status <;> rw [hs] at h <;> cases h
    exact ⟨rfl, rfl, hs ▸ StatusStep.claim⟩
  · intro j' h
    unfold succeedJob at h
    cases hs : j.status <;> rw [hs] at h <;> cases h
    · exact Or.inl ⟨rfl, rfl, hs ▸ StatusStep.succeed⟩
    · exact Or.inr ⟨rfl, rfl⟩
  · intro j' h
    unfold failJob at h
    cases hs : j.status <;> rw [hs] at h <;> cases h
    · exact Or.inl ⟨rfl, rfl, hs ▸ StatusStep.fail⟩
    · exact Or.inr ⟨rfl, rfl⟩
  · intro j' h
    unfold cancelJob at h
    cases hs : j.status <;> rw [hs] at h <;> cases h
    · exact Or.inl ⟨Or.inl rfl, rfl, hs ▸ StatusStep.cancelQueued⟩
    · exact Or.inl ⟨Or.inr rfl, rfl, hs ▸ StatusStep.cancelRunning⟩
    · exact Or.inr ⟨rfl, rfl⟩
  · intro j' h
    unfold claimTransition at h
    cases hs : j.status <;> rw [hs] at h <;> cases h
    simp [statusRank, hs]
  · unfold succeedJob
    cases hs : j.status <;> simp [hs]
  · unfold failJob
    cases hs : j.status <;> simp [hs]
  · intro j' h
    unfold succeedJob at h ⊢
    cases hs : j.status <;> rw [hs] at h <;> cases h <;> simp [hs]

/-- Witness for C3 amended: a second succeed on the already-succeeded
fixture job is a no-op. -/
theorem c3_state_machine_amended_witness :
    succeedJob exSucceededJob 61 [] = .ok exSucceededJob :=
  (c3_state_machine_amended exRunningJob 60 61 [] [] "m").2.2.2.2.2.2.2 exSucceededJob rfl

theorem claimStep_eq (jobs : List Job) (now : Nat) :
    claimStep jobs now =
      match (List.insertionSort claimOrder
          (jobs.filter (fun j => decide (j.status = QUEUED)))).head? with
      | none => (jobs, none)
      | some j =>
        (jobs.map (fun x =>
            if x.id = j.id ∧ x.status = QUEUED then
              { x with status := RUNNING, started_at := some now }
            else x),
         some j.id) := rfl

theorem mem_claimStep_fst {jobs : List Job} {now : Nat} {y : Job}
    (hy : y ∈ (claimStep jobs now).1) :
    y ∈ jobs ∨ ∃ x ∈ jobs, x.status = QUEUED
      ∧ y = { x with status := RUNNING, started_at := some now } := by
  rw [claimStep_eq] at hy
  cases hh : (List.insertionSort claimOrder
      (jobs.filter (fun j => decide (j.status = QUEUED)))).head? with
  | none =>
    rw [hh] at hy
    exact Or.inl hy
  | some j =>
    rw [hh] at hy
    rw [List.mem_map] at hy
    obtain ⟨x, hx, heq⟩ := hy
    by_cases hc : x.id = j.id ∧ x.status = QUEUED
    · rw [if_pos hc] at heq
      exact Or.inr ⟨x, hx, hc.2, heq.symm⟩
    · rw [if_neg hc] at heq
      exact Or.inl (heq ▸ hx)

theorem claimStep_preserves {jobs : List Job} {now : Nat} {J : Nat}
    (h : ∀ x ∈ jobs, x.id = J → x.status ≠ QUEUED) :
    ∀ y ∈ (claimStep jobs now).1, y.id = J → y.status ≠ QUEUED := by
  intro y hy hid
  rcases mem_claimStep_fst hy with hmem | ⟨x, hx, _, rfl⟩
  · exact h y hmem hid
  · intro hc
    cases hc

theorem claimStep_snd_some {jobs : List Job} {now : Nat} {i : Nat}
    (h : (claimStep jobs now).2 = some i) :
    ∃ x ∈ jobs, x.id = i ∧ x.status = QUEUED := by
  rw [claimStep_eq] at h
  cases hh : (List.insertionSort claimOrder
      (jobs.filter (fun j => decide (j.status = QUEUED)))).head? with
  | none =>
    rw [hh] at h
    cases h
  | some j =>
    rw [hh] at h
    cases h
    have hj : j ∈ List.insertionSort claimOrder
        (jobs.filter (fun j => decide (j.status = QUEUED))) :=
      List.mem_of_mem_head? (Option.mem_def.mpr hh)
    rw [List.mem_insertionSort] at hj
    have hjj := List.of_mem_filter hj
    simp only [decide_eq_true_eq] at hjj
    exact ⟨j, List.mem_of_mem_filter hj, rfl, hjj⟩

theorem claimStep_snd_post {jobs : List Job} {now : Nat} {i : Nat}
    (h : (claimStep jobs now).2 = some i) :
    ∀ y ∈ (claimStep jobs now).1, y.id = i → y.status ≠ QUEUED := by
  intro y hy hid
  rw [claimStep_eq] at h hy
  cases hh : (List.insertionSort claimOrder
      (jobs.filter (fun j => decide (j.status = QUEUED)))).head? with
  | none =>
    rw [hh] at h
    cases h
  | some j =>
    rw [hh] at h hy
    cases h
    dsimp only at hy
    rw [List.mem_map] at hy
    obtain ⟨x, _, heq⟩ := hy
    by_cases hc : x.id = j.id ∧ x.status = QUEUED
    · rw [if_pos hc] at heq
      intro hq
      rw [← heq] at hq
      cases hq
    · rw [if_neg hc] at heq
      intro hq
      apply hc
      rw [← heq] at hid hq
      exact ⟨hid, hq⟩

theorem claimMany_count_zero (J : Nat) :
    ∀ (n : Nat) (jobs : List Job) (now : Nat),
      (∀ x ∈ jobs, x.id = J → x.status ≠ QUEUED) →
      ((claimMany jobs now n).2.count (some J)) = 0 := by
  intro n
  induction n with
  | zero =>
    intro jobs now _
    rfl
  | succ n ih =>
    intro jobs now h
    simp only [claimMany, List.count_cons]
    rw [ih (claimStep jobs now).1 (now + 1) (claimStep_preserves h)]
    have hne : (claimStep jobs now).2 ≠ some J := by
      intro hc
      obtain ⟨x, hx, hid, hq⟩ := claimStep_snd_some hc
      exact h x hx hid hq
    simp [hne]

theorem claimMany_count_le (J : Nat) :
    ∀ (n : Nat) (jobs : List Job) (now : Nat),
      ((claimMany jobs now n).2.count (some J)) ≤ 1 := by
  intro n
  induction n with
  | zero =>
    intro jobs now
    exact Nat.zero_le 1
  | succ n ih =>
    intro jobs now
    simp only [claimMany, List.count_cons]
    by_cases hr : (claimStep jobs now).2 = some J
    · rw [claimMany_count_zero J n (claimStep jobs now).1 (now + 1)
        (claimStep_snd_post hr)]
      simp [hr]
    · have := ih (claimStep jobs now).1 (now + 1)
      simp only [beq_iff_eq, hr, if_false]
      omega

/-- C2: per spec section 4.2 the claim is a single atomic conditional
state-check-and-set, so an arbitrary concurrent interleaving of N claim
operations is N atomic steps in sequence.  For a QUEUED job j, at most one
of the N claims observes success for j (each other claim returns a
different job id or no work); and when j is the only QUEUED job, exactly
one claim succeeds on it. -/
theorem c2_claim_mutual_exclusion (jobs : List Job) (now n : Nat) (j : Job)
    (hmem : j ∈ jobs) (hq : j.status = QUEUED) (hn : 2 ≤ n) :
    ((claimMany jobs now n).2.count (some j.id)) ≤ 1
    ∧ ((∀ x ∈ jobs, x.status = QUEUED → x = j) →
        ((claimMany jobs now n).2.count (some j.id)) = 1) := by
  constructor
  · exact claimMany_count_le j.id n jobs now
  · intro huniq
    obtain ⟨n', rfl⟩ : ∃ n', n = n' + 1 := ⟨n - 1, by omega⟩
    have hstep : (claimStep jobs now).2 = some j.id := by
      rw [claimStep_eq]
      cases hh : (List.insertionSort claimOrder
          (jobs.filter (fun j => decide (j.status = QUEUED)))).head? with
      | none =>
        rw [List.head?_eq_none_iff] at hh
        exfalso
        have hjq : j ∈ jobs.filter (fun j => decide (j.status = QUEUED)) :=
          List.mem_filter.mpr ⟨hmem, by simp [hq]⟩
        rw [← List.mem_insertionSort claimOrder] at hjq
        rw [hh] at hjq
        cases hjq
      | some j0 =>
        have hj0 : j0 ∈ List.insertionSort claimOrder
            (jobs.filter (fun j => decide (j.status = QUEUED))) :=
          List.mem_of_mem_head? (Option.mem_def.mpr hh)
        rw [List.mem_insertionSort] at hj0
        have hq0 := List.of_mem_filter hj0
        simp only [decide_eq_true_eq] at hq0
        have hj0j : j0 = j := huniq j0 (List.mem_of_mem_filter hj0) hq0
        subst hj0j
        rfl
    simp only [claimMany, List.count_cons]
    rw [claimMany_count_zero j.id n' (claimStep jobs now).1 (now + 1)
      (claimStep_snd_post hstep)]
    simp [hstep]

/-- Witness for C2: one QUEUED job and two sequentialized claims give
exactly one success for that job id. -/
theorem c2_claim_mutual_exclusion_witness :
    ((claimMany [exQueuedJob] 70 2).2.count (some 43)) = 1 :=
  (c2_claim_mutual_exclusion [exQueuedJob] 70 2 exQueuedJob (by decide) (by decide)
    (by decide)).2 (by decide)

/-- The item row as stored for a raw record: created_at from the first
insert, observed_at from the latest ingestion. -/
def ingestedRow (dsId : Nat) (r : RawRecord) (tid : Option Nat)
    (newId created observed : Nat) : Item :=
  { id := newId
    dataset_id := dsId
    tenant_id := tid
    entity_type := r.entity_type
    tags := r.tags
    source := r.source
    url := r.url
    canonical_url := r.canonical_url
    hash := fingerprint r.data
    published_at := r.published_at
    observed_at := observed
    data := r.data
    created_at := created }

/-- C4: ingesting the same RawRecord twice into a store with no row for
(dataset_id, url) gives created then unchanged, leaves exactly one row for
that key, preserves created_at (n1) and advances observed_at to the second
call's clock (n2 > n1). -/
theorem c4_ingest_idempotent (items : List Item) (dsId : Nat) (r : RawRecord)
    (tid : Option Nat) (newId newId2 n1 n2 : Nat)
    (hfresh : ∀ it ∈ items, ¬(it.dataset_id = dsId ∧ it.url = r.url))
    (hadv : n1 < n2) :
    (ingest items dsId r tid newId n1).2 = .created
    ∧ (ingest items dsId r tid newId n1).1 = items ++ [ingestedRow dsId r tid newId n1 n1]
    ∧ (ingest (ingest items dsId r tid newId n1).1 dsId r tid newId2 n2).2 = .unchanged
    ∧ (ingest (ingest items dsId r tid newId n1).1 dsId r tid newId2 n2).1
        = items ++ [ingestedRow dsId r tid newId n1 n2]
    ∧ ((ingest (ingest items dsId r tid newId n1).1 dsId r tid newId2 n2).1.countP
        (fun it => decide (it.dataset_id = dsId) && decide (it.url = r.url))) = 1
    ∧ (ingestedRow dsId r tid newId n1 n2).created_at = n1
    ∧ (ingestedRow dsId r tid newId n1 n2).observed_at = n2
    ∧ n1 < n2 := by
  have hfind : items.find?
      (fun it => decide (it.dataset_id = dsId) && decide (it.url = r.url)) = none := by
    rw [List.find?_eq_none]
    intro x hx
    simpa using hfresh x hx
  have h1 : ingest items dsId r tid newId n1
      = (items ++ [ingestedRow dsId r tid newId n1 n1], .created) := by
    unfold ingest
    rw [hfind]
    exact rfl
  have hrowpred : (fun it => decide (it.dataset_id = dsId) && decide (it.url = r.url))
      (ingestedRow dsId r tid newId n1 n1) = true := by
    simp [ingestedRow]
  have hfind2 : (items ++ [ingestedRow dsId r tid newId n1 n1]).find?
      (fun it => decide (it.dataset_id = dsId) && decide (it.url = r.url))
      = some (ingestedRow dsId r tid newId n1 n1) := by
    rw [List.find?_append, hfind, Option.none_or]
    exact List.find?_cons_of_pos _ hrowpred
  have h2 : ingest (items ++ [ingestedRow dsId r tid newId n1 n1]) dsId r tid newId2 n2
      = (items ++ [ingestedRow dsId r tid newId n1 n2], .unchanged) := by
    unfold ingest
    rw [hfind2]
    dsimp only
    rw [if_pos (show (ingestedRow dsId r tid newId n1 n1).hash = fingerprint r.data from rfl)]
    have hmap : (items ++ [ingestedRow dsId r tid newId n1 n1]).map
        (fun it => if it.dataset_id = dsId ∧ it.url = r.url then
          { it with observed_at := n2 } else it)
        = items ++ [ingestedRow dsId r tid newId n1 n2] := by
      rw [List.map_append]
      congr 1
      · calc items.map (fun it => if it.dataset_id = dsId ∧ it.url = r.url then
              { it with observed_at := n2 } else it)
            = items.map id := by
              apply List.map_congr_left
              intro a ha
              exact if_neg (hfresh a ha)
          _ = items := List.map_id items
      · simp [ingestedRow]
    rw [hmap]
  refine ⟨by rw [h1], by rw [h1], ?_, ?_, ?_, rfl, rfl, hadv⟩
  · rw [h1, h2]
  · rw [h1, h2]
  · rw [h1, h2]
    rw [List.countP_append]
    have hz : items.countP
        (fun it => decide (it.dataset_id = dsId) && decide (it.url = r.url)) = 0 := by
      rw [List.countP_eq_zero]
      intro a ha
      simpa using hfresh a ha
    rw [hz]
    simp [ingestedRow, List.countP_cons]

/-- Witness for C4: ingesting the fixture record twice into the empty
store. -/
theorem c4_ingest_idempotent_witness :
    (ingest [] 10 exRaw none 31 100).2 = .created
    ∧ (ingest [] 10 exRaw none 31 100).1 = [] ++ [ingestedRow 10 exRaw none 31 100 100]
    ∧ (ingest (ingest [] 10 exRaw none 31 100).1 10 exRaw none 32 200).2 = .unchanged
    ∧ (ingest (ingest [] 10 exRaw none 31 100).1 10 exRaw none 32 200).1
        = [] ++ [ingestedRow 10 exRaw none 31 100 200]
    ∧ ((ingest (ingest [] 10 exRaw none 31 100).1 10 exRaw none 32 200).1.countP
        (fun it => decide (it.dataset_id = 10) && decide (it.url = exRaw.url))) = 1
    ∧ (ingestedRow 10 exRaw none 31 100 200).created_at = 100
    ∧ (ingestedRow 10 exRaw none 31 100 200).observed_at = 200
    ∧ 100 < 200 :=
  c4_ingest_idempotent [] 10 exRaw none 31 32 100 200 (by decide) (by decide)

theorem buildPage_of_long {α : Type} (key : α → Nat × Nat) (e : Nat) (Q : List α)
    (he : 1 ≤ e) (hlen : e < Q.length) :
    buildPage key e (Q.take (e + 1))
      = (Q.take e, some (key (Q.get ⟨e - 1, by omega⟩))) := by
  have hclen : (Q.take (e + 1)).length = e + 1 := by
    simp only [List.length_take]
    omega
  have hklt : e < (Q.take (e + 1)).length := by
    rw [hclen]
    omega
  have htt : (Q.take (e + 1)).take e = Q.take e := by
    rw [List.take_take]
    congr 1
    omega
  have hget : (Q.take (e + 1)).get ⟨e - 1, by omega⟩ = Q.get ⟨e - 1, by omega⟩ := by
    simp only [List.get_eq_getElem, List.getElem_take]
  unfold buildPage
  rw [dif_pos hklt, htt, hget]

/-- Fixture: two visible jobs on the shared dataset. -/
def exJobP1 : Job :=
  { id := 61, dataset_id := 10, tenant_id := 1, status := QUEUED, created_at := 10,
    started_at := none, finished_at := none, progress := 0, stats := [],
    error_message := none }

/-- Fixture: second visible job, newer than exJobP1. -/
def exJobP2 : Job :=
  { id := 62, dataset_id := 10, tenant_id := 1, status := QUEUED, created_at := 20,
    started_at := none, finished_at := none, progress := 0, stats := [],
    error_message := none }

/-- Fixture: second item on the shared dataset, newer than exItemA. -/
def exItemB : Item :=
  { id := 32, dataset_id := 10, tenant_id := none, entity_type := "article.v1",
    tags := [], source := "s", url := "http://v", canonical_url := none,
    hash := "h2", published_at := none, observed_at := 200, data := [],
    created_at := 200 }

/-- Fixture database for the page-shape checks: two jobs and two items. -/
def exDbPages : Db :=
  { tenants := [exTenantA]
    datasets := [exShared]
    jobs := [exJobP1, exJobP2]
    items := [exItemA, exItemB] }

/-- Fixture job filters requesting pages of one row. -/
def exJobF1 : JobFilters :=
  { datasetId := none, status := none, limit := some 1, cursor := none }

/-- Fixture item filters requesting pages of one row. -/
def exItemF1 : ItemFilters :=
  { datasetId := none, entityType := none, tag := none, source := none,
    since := none, untilTs := none, limit := some 1, cursor := none }

/-- C6: each findAll fetches at most n+1 candidate rows; when n+1 come
back the returned page is exactly the first n rows and the next cursor is
built (in "<primary>|<id>" wire form via encodeCursorStr) from the n-th
returned row's sort key; a supplied cursor (c1, c2) restricts the query to
rows with primary < c1 or (primary = c1 and id < c2). -/
theorem c6_keyset_page_shape (db : Db) (t : Tenant) (fj : JobFilters) (fi : ItemFilters)
    (c : Nat × Nat)
    (hej : 1 ≤ effLimitN fj.limit) (hei : 1 ≤ effLimitN fi.limit)
    (hjlen : effLimitN fj.limit < (jobsQueryRows db t fj).length)
    (hilen : effLimitN fi.limit < (itemsQueryRows db t fi).length) :
    ((jobsQueryRows db t fj).take (effLimitN fj.limit + 1)).length ≤ effLimitN fj.limit + 1
    ∧ ((itemsQueryRows db t fi).take (effLimitN fi.limit + 1)).length ≤ effLimitN fi.limit + 1
    ∧ (jobsFindAll db t fj).jobs = (jobsQueryRows db t fj).take (effLimitN fj.limit)
    ∧ (jobsFindAll db t fj).nextCursor
        = some (jobKey ((jobsQueryRows db t fj).get ⟨effLimitN fj.limit - 1, by omega⟩))
    ∧ (jobsFindAll db t fj).nextCursor.map encodeCursorStr
        = some (encodeCursorStr
            (jobKey ((jobsQueryRows db t fj).get ⟨effLimitN fj.limit - 1, by omega⟩)))
    ∧ (itemsFindAll db t fi).items = (itemsQueryRows db t fi).take (effLimitN fi.limit)
    ∧ (itemsFindAll db t fi).nextCursor
        = some (itemKey ((itemsQueryRows db t fi).get ⟨effLimitN fi.limit - 1, by omega⟩))
    ∧ jobsQueryRows db t { fj with cursor := some c }
        = (jobsUnpaged db t fj).filter (fun j => cursorLtB (jobKey j) c)
    ∧ itemsQueryRows db t { fi with cursor := some c }
        = (itemsUnpaged db t fi).filter (fun it => cursorLtB (itemKey it) c) := by
  have hbj := buildPage_of_long jobKey (effLimitN fj.limit) (jobsQueryRows db t fj) hej hjlen
  have hbi := buildPage_of_long itemKey (effLimitN fi.limit) (itemsQueryRows db t fi) hei hilen
  refine ⟨?_, ?_, ?_, ?_, ?_, ?_, ?_, ?_, ?_⟩
  · simp only [List.length_take]
    omega
  · simp only [List.length_take]
    omega
  · show (buildPage jobKey (effLimitN fj.limit)
      ((jobsQueryRows db t fj).take (effLimitN fj.limit + 1))).1 = _
    rw [hbj]
  · show (buildPage jobKey (effLimitN fj.limit)
      ((jobsQueryRows db t fj).take (effLimitN fj.limit + 1))).2 = _
    rw [hbj]
  · show ((buildPage jobKey (effLimitN fj.limit)
      ((jobsQueryRows db t fj).take (effLimitN fj.limit + 1))).2).map encodeCursorStr = _
    rw [hbj]
    rfl
  · show (buildPage itemKey (effLimitN fi.limit)
      ((itemsQueryRows db t fi).take (effLimitN fi.limit + 1))).1 = _
    rw [hbi]
  · show (buildPage itemKey (effLimitN fi.limit)
      ((itemsQueryRows db t fi).take (effLimitN fi.limit + 1))).2 = _
    rw [hbi]
  · exact jobsQueryRows_cursor db t fj (some c)
  · exact itemsQueryRows_cursor db t fi (some c)

/-- Witness for C6: with two visible jobs and page size 1 the returned
page is exactly the first row of the ordered query. -/
theorem c6_keyset_page_shape_witness :
    (jobsFindAll exDbPages exTenantA exJobF1).jobs
      = (jobsQueryRows exDbPages exTenantA exJobF1).take (effLimitN exJobF1.limit) :=
  (c6_keyset_page_shape exDbPages exTenantA exJobF1 exItemF1 (0, 0)
    (by decide) (by decide) (by decide) (by decide)).2.2.1

set_option maxRecDepth 10000

/-- C5 counterexample: 101 items and requested page size k = 101.  The
limit clamp Math.min(k, 100) makes the effective page size 100, so the
traversal produces 2 pages while the claim's ceil(count/k) = ceil(101/101)
demands 1. -/
theorem c5_counterexample :
    (itemsPaginate exDbClamp exTenantA noItemFilters 101).length = 2
    ∧ (itemsUnpaged exDbClamp exTenantA noItemFilters).length = 101
    ∧ (101 + 101 - 1) / 101 = 1 := by
  refine ⟨by decide, by decide, by decide⟩

/-- C5 amended: for page sizes 1 ≤ k ≤ 100 (the un-clamped range) and
distinct item ids, paginating to exhaustion with no concurrent writes
yields exactly the single unpaged fetch in its (observed_at desc, id desc)
order with no row duplicated or omitted, in ceil(count/k) pages when the
collection is nonempty and a single empty page when it is empty. -/
theorem c5_items_pagination_roundtrip (db : Db) (t : Tenant) (f : ItemFilters) (k : Nat)
    (hk1 : 1 ≤ k) (hk2 : k ≤ 100) (hnd : (db.items.map Item.id).Nodup) :
    (itemsPaginate db t f k).flatten = itemsUnpaged db t f
    ∧ ((itemsPaginate db t f k).flatten.map Item.id).Nodup
    ∧ (itemsPaginate db t f k).length
        = (if (itemsUnpaged db t f).length = 0 then 1
           else ((itemsUnpaged db t f).length + k - 1) / k) := by
  have he := itemsPaginate_eq_chunkPages db t f k hk1 hk2 hnd
  refine ⟨?_, ?_, ?_⟩
  · rw [he, chunkPages_flatten]
  · rw [he, chunkPages_flatten]
    exact itemsUnpaged_nodup_ids db t f hnd
  · rw [he, chunkPages_length k hk1]

/-- Witness for C5 amended: paging the two fixture items one at a time
reassembles the unpaged fetch. -/
theorem c5_items_pagination_roundtrip_witness :
    (itemsPaginate exDbPages exTenantA noItemFilters 1).flatten
      = itemsUnpaged exDbPages exTenantA noItemFilters :=
  (c5_items_pagination_roundtrip exDbPages exTenantA noItemFilters 1
    (by decide) (by decide) (by decide)).1
